import Mathlib

/-!
Shallow embedding of `src/eda_report_generator.py` (an EDA report generator
over a tabular sales dataset) together with theorems settling the claims
about its specification.

Conventions of the embedding:
* A pandas value is `Val` (a rational number, a string, or NaN/`na`).
* A dataframe is a `Table`: an ordered association list of named columns,
  each column an ordered list of values aligned by row index.
* Machine floats are modelled as rationals `ℚ`; the statistical library
  calls (`scipy.stats.chi2_contingency`, `statsmodels OLS`,
  `Series.corr`) are external collaborators: the embedding models exactly
  the data the program hands to them, which is what the claims are about.
-/

/-- A cell value of the loaded dataframe: numeric, string, or missing (NaN). -/
inductive Val where
  | num (q : ℚ)
  | str (s : String)
  | na
deriving DecidableEq, Repr

/-- `True` iff the value is missing (pandas NaN). -/
def Val.isNa : Val → Bool
  | .na => true
  | _ => false

/-- Numeric view of a value (`float(v)` when defined, none on NaN). -/
def Val.toNum : Val → Option ℚ
  | .num q => some q
  | _ => none

/-- A dataframe: ordered list of (column name, column values). -/
abbrev Table : Type := List (String × List Val)

/-- `df[c]`: the first column named `c`, if present. -/
def getCol : Table → String → Option (List Val)
  | [], _ => none
  | p :: t, c => if p.1 = c then some p.2 else getCol t c

/-- `df[c]` with empty default (used only under a presence gate). -/
def getColD (df : Table) (c : String) : List Val :=
  (getCol df c).getD []

/-- `c in df.columns`. -/
def hasCol (df : Table) (c : String) : Bool :=
  (getCol df c).isSome

/-- `df[c] = v`: overwrite the first column named `c` in place, or append a
new column at the end (pandas column-assignment semantics). -/
def setCol : Table → String → List Val → Table
  | [], c, v => [(c, v)]
  | p :: t, c, v => if p.1 = c then (c, v) :: t else p :: setCol t c v

/-- `df.columns`. -/
def colNames (df : Table) : List String :=
  df.map (·.1)

/-- `len(df)`: the number of rows (length of the first column). -/
def nrows : Table → ℕ
  | [] => 0
  | p :: _ => p.2.length

/-!
Section: Loader/Enricher (source lines 65-80)

`pd.to_datetime` is real-world date parsing; the enrichment theorems hold
for an arbitrary all-or-nothing column parser, so the parser is a
parameter: `parse col = some col2` models a successful parse of the whole
column, `none` models the exception swallowed by the bare `except`.
-/

/-- Bucket one age by `pd.cut(df["Age"], bins=[18,25,35,45,55,200],
labels=["18-25","26-35","36-45","46-55","55+"], right=True)`:
half-open bins `(18,25], (25,35], (35,45], (45,55], (55,200]`,
anything outside maps to NaN. -/
def ageGroup (a : ℚ) : Option String :=
  if 18 < a ∧ a ≤ 25 then some "18-25"
  else if 25 < a ∧ a ≤ 35 then some "26-35"
  else if 35 < a ∧ a ≤ 45 then some "36-45"
  else if 45 < a ∧ a ≤ 55 then some "46-55"
  else if 55 < a ∧ a ≤ 200 then some "55+"
  else none

/-- The whole `pd.cut` call on the Age column: it raises (caught by the
surrounding `except`, giving `none`) when the column is not numeric;
otherwise each NaN stays NaN and each number goes through `ageGroup`. -/
def cutAges (vs : List Val) : Option (List Val) :=
  if vs.all (fun v => v.isNa || v.toNum.isSome) then
    some (vs.map (fun v =>
      match v.toNum with
      | some q => match ageGroup q with
                  | some l => Val.str l
                  | none => Val.na
      | none => Val.na))
  else none

/-- Element-wise `Price * Quantity` (NaN-propagating, as in pandas). -/
def mulVal : Val → Val → Val
  | .num a, .num b => .num (a * b)
  | _, _ => .na

/-- Source lines 67-71: parse `OrderDate` in place when present and when
the parse succeeds; on failure the bare `except: pass` leaves it alone. -/
def enrichDate (parse : List Val → Option (List Val)) (df : Table) : Table :=
  match getCol df "OrderDate" with
  | some col =>
      match parse col with
      | some col2 => setCol df "OrderDate" col2
      | none => df
  | none => df

/-- Source lines 72-78: derive `AgeGroup` from `Age` when present; a
failing `pd.cut` is swallowed and the column is not assigned. -/
def enrichAge (df : Table) : Table :=
  match getCol df "Age" with
  | some ages =>
      match cutAges ages with
      | some groups => setCol df "AgeGroup" groups
      | none => df
  | none => df

/-- Source lines 79-80: derive `Revenue = Price * Quantity` element-wise
when `Price` and `Quantity` exist and `Revenue` does not. -/
def enrichRevenue (df : Table) : Table :=
  if hasCol df "Price" && hasCol df "Quantity" && !hasCol df "Revenue" then
    setCol df "Revenue"
      (List.zipWith mulVal (getColD df "Price") (getColD df "Quantity"))
  else df

/-- The full enrichment step of `main` (source lines 66-80). -/
def enrich (parse : List Val → Option (List Val)) (df : Table) : Table :=
  enrichRevenue (enrichAge (enrichDate parse df))

/-!
Section: Quality profiler: IQR outlier rule (source lines 35-39)

`iqr_outliers_count` receives `df[c].dropna()`, so its input is the list
of present numeric values of one column. `Series.quantile` uses the
default linear interpolation on the sorted values.
-/

/-- The values of a series in ascending order (what `quantile` sorts). -/
def sortedVals (s : List ℚ) : List ℚ :=
  List.insertionSort (fun a b => a ≤ b) s

/-- Linear interpolation of a sorted list at fractional position `h`,
as in `numpy.percentile(interpolation="linear")`:
`x[floor h] + (h - floor h) * (x[floor h + 1] - x[floor h])`. -/
def interpAt (xs : List ℚ) (h : ℚ) : ℚ :=
  xs.getD (⌊h⌋).toNat 0 +
    (h - (⌊h⌋ : ℚ)) *
      (xs.getD ((⌊h⌋).toNat + 1) (xs.getD (⌊h⌋).toNat 0) - xs.getD (⌊h⌋).toNat 0)

/-- `s.quantile(p)` (source line 36): linear interpolation of the sorted
values at position `p * (n - 1)`. -/
def quantile (s : List ℚ) (p : ℚ) : ℚ :=
  interpAt (sortedVals s) (p * (((sortedVals s).length : ℚ) - 1))

/-- `lower = q1 - 1.5*iqr` (source line 38). -/
def lowerBound (s : List ℚ) : ℚ :=
  quantile s (1/4) - 3/2 * (quantile s (3/4) - quantile s (1/4))

/-- `upper = q3 + 1.5*iqr` (source line 38). -/
def upperBound (s : List ℚ) : ℚ :=
  quantile s (3/4) + 3/2 * (quantile s (3/4) - quantile s (1/4))

/-- `((s < lower) | (s > upper)).sum()` (source line 39). -/
def iqrOutliersCount (s : List ℚ) : ℕ :=
  s.countP (fun x => decide (x < lowerBound s) || decide (upperBound s < x))

/-!
Section: Contingency tables and `chi_square_test` (source lines 41-47)

A `pd.crosstab` result is its row labels, its column labels and the count
in each cell. (pandas sorts the labels; label order is irrelevant to every
claim here, so observation order is kept.) `scipy.stats.chi2_contingency`
is an external collaborator: the claims are about the table handed to it.
-/

/-- A contingency table: row labels, column labels, cell counts. -/
@[ext]
structure CrossTab where
  rows : List Val
  cols : List Val
  cell : Val → Val → ℕ

/-- `pd.crosstab(df[col_a], df[col_b])` built from the observed pairs. -/
def crosstab (pairs : List (Val × Val)) : CrossTab :=
  { rows := (pairs.map Prod.fst).dedup
    cols := (pairs.map Prod.snd).dedup
    cell := fun a b => pairs.count (a, b) }

/-- `tab.sum(axis=1)` at one row label: the row's marginal total. -/
def rowSum (t : CrossTab) (a : Val) : ℕ :=
  (t.cols.map (t.cell a)).sum

/-- `tab.sum(axis=0)` at one column label: the column's marginal total. -/
def colSum (t : CrossTab) (b : Val) : ℕ :=
  (t.rows.map (fun a => t.cell a b)).sum

/-- `(tab < min_count).any().any()` (source line 43). -/
def anyCellBelow (t : CrossTab) (m : ℕ) : Bool :=
  t.rows.any (fun a => t.cols.any (fun b => t.cell a b < m))

/-- `tab.loc[tab.sum(axis=1) >= m, tab.sum(axis=0) >= m]` (source line 45):
drop every row and every column whose marginal total in the original
table is below `m`, in one shot. -/
def pruneLowMarginals (t : CrossTab) (m : ℕ) : CrossTab :=
  { rows := t.rows.filter (fun a => m ≤ rowSum t a)
    cols := t.cols.filter (fun b => m ≤ colSum t b)
    cell := t.cell }

/-- The contingency table `chi_square_test` hands to
`stats.chi2_contingency` (source lines 42-46): the crosstab, pruned only
when some cell is below `min_count = 5`. -/
def chiSquareInput (t : CrossTab) : CrossTab :=
  if anyCellBelow t 5 then pruneLowMarginals t 5 else t

/-!
Section: the gated analysis pipeline of `main` (source lines 132-189)

Each analysis is gated by `{...}.issubset(df.columns)`; every branch reads
the same immutable dataframe and appends its own output. What each branch
hands to the external statistics/plotting library is modelled exactly;
the library calls themselves (scipy, statsmodels, matplotlib) are the
external collaborators.
-/

/-- Rows of two columns with the NaN rows dropped then paired:
`df.dropna(subset=[a, b])` restricted to columns `a`, `b`. -/
def dropnaPairs (df : Table) (a b : String) : List (Val × Val) :=
  ((getColD df a).zip (getColD df b)).filter (fun p => !p.1.isNa && !p.2.isNa)

/-- The distinct non-NaN group keys of a column (`groupby` drops NaN). -/
def groupKeys (vs : List Val) : List Val :=
  (vs.filter (fun v => !v.isNa)).dedup

/-- The numeric values of column `c` on the rows whose key column `k`
equals `g` (pandas aggregations skip NaN values). -/
def numsAtKey (df : Table) (k c : String) (g : Val) : List ℚ :=
  ((getColD df k).zip (getColD df c)).filterMap
    (fun p => if p.1 = g then p.2.toNum else none)

/-- `df.groupby(k)[c].sum()`. -/
def groupSum (df : Table) (k c : String) : List (Val × ℚ) :=
  (groupKeys (getColD df k)).map (fun g => (g, (numsAtKey df k c g).sum))

/-- Mean of a list of rationals (`Series.mean` over the non-NaN values;
division by zero is the degenerate empty-group case). -/
def qMean (l : List ℚ) : ℚ :=
  l.sum / l.length

/-- `df.groupby(k)[c].mean() * 100`. -/
def groupMeanPct (df : Table) (k c : String) : List (Val × ℚ) :=
  (groupKeys (getColD df k)).map (fun g => (g, qMean (numsAtKey df k c g) * 100))

/-- Rows of two columns where both values are numeric:
`df[[a, b]].dropna()` as handed to `.corr()`. -/
def numPairs (df : Table) (a b : String) : List (ℚ × ℚ) :=
  ((getColD df a).zip (getColD df b)).filterMap
    (fun p => match p.1.toNum, p.2.toNum with
              | some x, some y => some (x, y)
              | _, _ => none)

/-- `Series.value_counts()`: occurrence counts of the non-NaN values,
sorted by count descending. -/
def valueCounts (vs : List Val) : List (Val × ℕ) :=
  List.insertionSort (fun p q => q.2 ≤ p.2)
    (((vs.filter (fun v => !v.isNa)).dedup).map
      (fun v => (v, (vs.filter (fun w => !w.isNa)).count v)))

/-- `df[mask]`: keep the rows at which the boolean mask is true. -/
def filterRows (df : Table) (mask : List Bool) : Table :=
  df.map (fun p => (p.1,
    (p.2.zip mask).filterMap (fun q => if q.2 then some q.1 else none)))

/-- The aligned `(DiscountPercent, Quantity)` rows as optional floats
(`astype(float)` with NaN as `none`), the data of source lines 186-187. -/
def optionPairs (df : Table) (a b : String) : List (Option ℚ × Option ℚ) :=
  ((getColD df a).map Val.toNum).zip ((getColD df b).map Val.toNum)

/-- `sm.OLS(y.dropna(), sm.add_constant(x.dropna().loc[y.dropna().index]))`
(source line 188): `y.dropna().index` is the rows with quantity present;
`.loc` on `x.dropna()` raises a `KeyError` if any of those rows has the
discount missing, and otherwise yields the x values on exactly those rows.
The result is the per-row `(x, y)` data handed to the OLS fit. -/
def regressionData (rows : List (Option ℚ × Option ℚ)) :
    Except String (List (ℚ × ℚ)) :=
  if rows.any (fun r => r.1.isNone && r.2.isSome) then
    Except.error "KeyError: not in index"
  else
    Except.ok (rows.filterMap (fun r =>
      match r with
      | (some a, some b) => some (a, b)
      | _ => none))

/-- Modelled from the spec: "fit ordinary least squares of quantity on
discount-percent plus an intercept, after dropping rows with missing
quantity and aligning discount-percent to the same row set" — the data of
that fit is, row by row over exactly the rows with quantity non-missing,
the pair (discount-percent there, quantity there). -/
def specRegressionRows (rows : List (Option ℚ × Option ℚ)) : List (ℚ × ℚ) :=
  (rows.filter (fun r => r.2.isSome)).map
    (fun r => (r.1.getD 0, r.2.getD 0))

/-- The ten gated analyses of `main`: four charts (lines 134-149), the
correlation (lines 152-155), four chi-square tests (lines 160-181) and
the regression (lines 184-189). -/
inductive Analysis where
  | revByCategory
  | rrByCategory
  | rrByBrand
  | rrByDevice
  | corrDiscQty
  | devReturned
  | regionDelivery
  | ageReturned
  | brandReturned
  | regDiscQty
deriving DecidableEq, Repr

/-- The gating column set of each analysis (`{...}.issubset(df.columns)`;
the nested `if`s of lines 139-149 are the same conjunction). -/
def requiredColumns : Analysis → List String
  | .revByCategory => ["Revenue", "Category"]
  | .rrByCategory => ["Returned", "Category"]
  | .rrByBrand => ["Returned", "Brand"]
  | .rrByDevice => ["Returned", "Device"]
  | .corrDiscQty => ["DiscountPercent", "Quantity"]
  | .devReturned => ["Device", "Returned"]
  | .regionDelivery => ["Region", "DeliveryStatus"]
  | .ageReturned => ["AgeGroup", "Returned"]
  | .brandReturned => ["Brand", "Returned"]
  | .regDiscQty => ["DiscountPercent", "Quantity"]

/-- The presence gate of one analysis. -/
def gate (a : Analysis) (df : Table) : Bool :=
  (requiredColumns a).all (hasCol df)

/-- What a gated analysis hands to the external library: chart data, a
named chi-square contingency table, correlation data, or regression data. -/
inductive Out where
  | chart (data : List (Val × ℚ))
  | test (name : String) (tab : CrossTab)
  | corr (data : List (ℚ × ℚ))
  | reg (data : Except String (List (ℚ × ℚ)))

/-- The body of each gated branch, evaluated only when its gate holds.
Charts carry the grouped series of `save_bar`; tests carry the table
`chi_square_test` hands to `stats.chi2_contingency` on the NaN-dropped
rows; the brand test (lines 176-181) first restricts to the 15 most
frequent brands and is skipped when that subset is empty. -/
def computeAnalysis : Analysis → Table → Option Out
  | .revByCategory, df => some (.chart (groupSum df "Category" "Revenue"))
  | .rrByCategory, df => some (.chart (groupMeanPct df "Category" "Returned"))
  | .rrByBrand, df => some (.chart
      ((List.insertionSort (fun p q => q.2 ≤ p.2)
        (groupMeanPct df "Brand" "Returned")).take 20))
  | .rrByDevice, df => some (.chart (groupMeanPct df "Device" "Returned"))
  | .corrDiscQty, df => some (.corr (numPairs df "DiscountPercent" "Quantity"))
  | .devReturned, df => some (.test "Device vs Returned (Chi-square)"
      (chiSquareInput (crosstab (dropnaPairs df "Device" "Returned"))))
  | .regionDelivery, df => some (.test "Region vs DeliveryStatus (Chi-square)"
      (chiSquareInput (crosstab (dropnaPairs df "Region" "DeliveryStatus"))))
  | .ageReturned, df => some (.test "AgeGroup vs Returned (Chi-square)"
      (chiSquareInput (crosstab (dropnaPairs df "AgeGroup" "Returned"))))
  | .brandReturned, df =>
      let topBrands := ((valueCounts (getColD df "Brand")).take 15).map (·.1)
      let sub := filterRows df
        ((getColD df "Brand").map (fun v => decide (v ∈ topBrands)))
      if 0 < nrows sub then
        some (.test "Top Brands vs Returned (Chi-square)"
          (chiSquareInput (crosstab (dropnaPairs sub "Brand" "Returned"))))
      else none
  | .regDiscQty, df => some (.reg
      (regressionData (optionPairs df "DiscountPercent" "Quantity")))

/-- One gated branch of `main`: run the body iff the gate holds. -/
def runAnalysis (a : Analysis) (df : Table) : Option Out :=
  if gate a df then computeAnalysis a df else none

/-- The `results` sequence of hypothesis tests (source lines 158-181),
in append order. -/
def hypothesisResults (df : Table) : List Out :=
  (runAnalysis .devReturned df).toList ++
    (runAnalysis .regionDelivery df).toList ++
      (runAnalysis .ageReturned df).toList ++
        (runAnalysis .brandReturned df).toList

/-- The pipeline with an explicit activation mask over the branches: the
program is `pipelineOutputs (fun _ => true)`, and masking a branch off is
the counterfactual "that analysis removed". -/
def pipelineOutputs (act : Analysis → Bool) (df : Table)
    (a : Analysis) : Option Out :=
  if act a then runAnalysis a df else none

/-- The fixed headline of each chi-square test in the `results` list. -/
def testName : Analysis → Option String
  | .devReturned => some "Device vs Returned (Chi-square)"
  | .regionDelivery => some "Region vs DeliveryStatus (Chi-square)"
  | .ageReturned => some "AgeGroup vs Returned (Chi-square)"
  | .brandReturned => some "Top Brands vs Returned (Chi-square)"
  | _ => none

/-!
Section: Report formatting (source lines 192-203)
-/

/-- `"Reject H0" if p < 0.05 else "Fail to reject H0"` (source line 195). -/
def decision (p : ℚ) : String :=
  if p < 5/100 then "Reject H0" else "Fail to reject H0"

/-- The `hyp_lines` list (source lines 192-200): the fixed header, then
one formatted line per test result, then the correlation and regression
lines when those strings are non-empty (`corr_line`/`reg_line` start as
`""`). -/
def hypLines (resultLines : List String) (corrLine regLine : String) :
    List String :=
  ["# 🧪 Hypothesis Testing (Auto)"] ++ resultLines ++
    (if corrLine = "" then [] else ["- " ++ corrLine]) ++
      (if regLine = "" then [] else ["- " ++ regLine])

/-- The text written to `reports/hypothesis_testing.md` (source line 203):
the joined `hyp_lines` when that list is non-empty, else the placeholder. -/
def hypFileContent (resultLines : List String) (corrLine regLine : String) :
    String :=
  if (hypLines resultLines corrLine regLine).isEmpty then
    "# 🧪 Hypothesis Testing\n(No eligible columns found.)"
  else
    String.intercalate "\n" (hypLines resultLines corrLine regLine)

theorem getCol_setCol_self (df : Table) (c : String) (v : List Val) :
    getCol (setCol df c v) c = some v := by
  induction df with
  | nil => simp [setCol, getCol]
  | cons p t ih =>
      by_cases h : p.1 = c
      · simp [setCol, h, getCol]
      · simp [setCol, h, getCol, ih]

theorem getCol_setCol_ne (df : Table) (c c' : String) (v : List Val)
    (h : c' ≠ c) : getCol (setCol df c v) c' = getCol df c' := by
  have hcc : ¬(c = c') := fun hc => h hc.symm
  induction df with
  | nil => simp [setCol, getCol, hcc]
  | cons p t ih =>
      by_cases hp : p.1 = c
      · by_cases hp' : p.1 = c'
        · exact absurd (hp.symm.trans hp') hcc
        · simp [setCol, hp, getCol, hcc, hp']
      · by_cases hp' : p.1 = c'
        · simp [setCol, hp, getCol, hp', h]
        · simp [setCol, hp, getCol, hp', ih]

theorem hasCol_setCol (df : Table) (c c' : String) (v : List Val) :
    hasCol (setCol df c v) c' = (c' = c || hasCol df c') := by
  by_cases h : c' = c
  · subst h
    simp [hasCol, getCol_setCol_self]
  · simp [hasCol, getCol_setCol_ne df c c' v h, h]

theorem colNames_setCol_present (df : Table) (c : String) (v : List Val)
    (h : hasCol df c = true) : colNames (setCol df c v) = colNames df := by
  induction df with
  | nil => simp [hasCol, getCol] at h
  | cons p t ih =>
      by_cases hp : p.1 = c
      · simp [setCol, hp, colNames]
      · have h' : hasCol t c = true := by simpa [hasCol, getCol, hp] using h
        simp [setCol, hp, colNames] at ih ⊢
        exact ih h'

theorem colNames_setCol_absent (df : Table) (c : String) (v : List Val)
    (h : hasCol df c = false) : colNames (setCol df c v) = colNames df ++ [c] := by
  induction df with
  | nil => simp [setCol, colNames]
  | cons p t ih =>
      by_cases hp : p.1 = c
      · exfalso
        simp [hasCol, getCol, hp] at h
      · have h' : hasCol t c = false := by simpa [hasCol, getCol, hp] using h
        simp [setCol, hp, colNames] at ih ⊢
        exact ih h'

theorem getCol_mem (df : Table) (c : String) (v : List Val)
    (h : getCol df c = some v) : (c, v) ∈ df := by
  induction df with
  | nil => simp [getCol] at h
  | cons p t ih =>
      by_cases hp : p.1 = c
      · simp only [getCol, hp, if_pos] at h
        have hpv : p = (c, v) := by
          cases h
          exact Prod.ext hp rfl
        rw [← hpv]
        exact List.mem_cons_self p t
      · simp only [getCol, hp, if_neg, ite_false] at h
        right
        exact ih h

theorem getCol_enrichDate_ne (parse : List Val → Option (List Val))
    (df : Table) (c : String) (h : c ≠ "OrderDate") :
    getCol (enrichDate parse df) c = getCol df c := by
  unfold enrichDate
  cases hd : getCol df "OrderDate" with
  | none => rfl
  | some col =>
      cases hp : parse col with
      | none => simp only [hp]
      | some col2 =>
          simp only [hp]
          exact getCol_setCol_ne df _ c col2 h

theorem getCol_enrichAge_ne (df : Table) (c : String) (h : c ≠ "AgeGroup") :
    getCol (enrichAge df) c = getCol df c := by
  unfold enrichAge
  cases hd : getCol df "Age" with
  | none => rfl
  | some ages =>
      cases hp : cutAges ages with
      | none => simp only [hp]
      | some groups =>
          simp only [hp]
          exact getCol_setCol_ne df _ c groups h

theorem getCol_enrichRevenue_ne (df : Table) (c : String) (h : c ≠ "Revenue") :
    getCol (enrichRevenue df) c = getCol df c := by
  unfold enrichRevenue
  split
  · exact getCol_setCol_ne df _ c _ h
  · rfl

theorem hasCol_enrichDate (parse : List Val → Option (List Val))
    (df : Table) (c : String) :
    hasCol (enrichDate parse df) c = hasCol df c := by
  unfold enrichDate
  cases hd : getCol df "OrderDate" with
  | none => rfl
  | some col =>
      cases hp : parse col with
      | none => simp only [hp]
      | some col2 =>
          simp only [hp]
          rw [hasCol_setCol]
          by_cases hc : c = "OrderDate"
          · subst hc
            simp [hasCol, hd]
          · simp [hc]

/-- C6: if `Price` and `Quantity` columns are present and `Revenue` is
absent, enrichment adds a `Revenue` column equal row-by-row to
`Price * Quantity`; a pre-existing `Revenue` column is left unchanged. -/
theorem c6_revenue_derivation (parse : List Val → Option (List Val))
    (df : Table) :
    (∀ p q, getCol df "Price" = some p → getCol df "Quantity" = some q →
        getCol df "Revenue" = none →
        getCol (enrich parse df) "Revenue" = some (List.zipWith mulVal p q)) ∧
    (∀ r, getCol df "Revenue" = some r →
        getCol (enrich parse df) "Revenue" = some r) := by
  constructor
  · intro p q hp hq hr
    have h2p : getCol (enrichAge (enrichDate parse df)) "Price" = some p := by
      rw [getCol_enrichAge_ne _ _ (by decide), getCol_enrichDate_ne _ _ _ (by decide)]
      exact hp
    have h2q : getCol (enrichAge (enrichDate parse df)) "Quantity" = some q := by
      rw [getCol_enrichAge_ne _ _ (by decide), getCol_enrichDate_ne _ _ _ (by decide)]
      exact hq
    have h2r : getCol (enrichAge (enrichDate parse df)) "Revenue" = none := by
      rw [getCol_enrichAge_ne _ _ (by decide), getCol_enrichDate_ne _ _ _ (by decide)]
      exact hr
    unfold enrich enrichRevenue
    rw [if_pos (by simp [hasCol, h2p, h2q, h2r])]
    rw [getCol_setCol_self]
    simp [getColD, h2p, h2q]
  · intro r hr
    have h2r : getCol (enrichAge (enrichDate parse df)) "Revenue" = some r := by
      rw [getCol_enrichAge_ne _ _ (by decide), getCol_enrichDate_ne _ _ _ (by decide)]
      exact hr
    unfold enrich enrichRevenue
    rw [if_neg (by simp [hasCol, h2r])]
    exact h2r

/-- Concrete witness table for C6: `Price = [10, 20]`, `Quantity = [2, 3]`. -/
def c6Table : Table :=
  [("Price", [Val.num 10, Val.num 20]), ("Quantity", [Val.num 2, Val.num 3])]

/-- Witness for C6: on the concrete table the derived revenue is `[20, 60]`. -/
theorem c6_witness :
    getCol (enrich (fun _ => none) c6Table) "Revenue" =
      some [Val.num 20, Val.num 60] := by
  have := (c6_revenue_derivation (fun _ => none) c6Table).1
    [Val.num 10, Val.num 20] [Val.num 2, Val.num 3] rfl rfl rfl
  simpa [mulVal, show (10:ℚ) * 2 = 20 by norm_num,
    show (20:ℚ) * 3 = 60 by norm_num] using this

theorem cutAges_length (vs gs : List Val) (h : cutAges vs = some gs) :
    gs.length = vs.length := by
  unfold cutAges at h
  split at h
  · cases h
    simp
  · cases h

theorem colNames_enrichDate (parse : List Val → Option (List Val))
    (df : Table) : colNames (enrichDate parse df) = colNames df := by
  unfold enrichDate
  cases hd : getCol df "OrderDate" with
  | none => rfl
  | some col =>
      cases hp : parse col with
      | none => simp only [hp]
      | some col2 =>
          simp only [hp]
          exact colNames_setCol_present df _ col2 (by simp [hasCol, hd])

theorem enrichDate_parse_fail (parse : List Val → Option (List Val))
    (df : Table) (dcol : List Val) (hd : getCol df "OrderDate" = some dcol)
    (hp : parse dcol = none) : enrichDate parse df = df := by
  unfold enrichDate
  rw [hd]
  simp only [hp]

theorem colNames_enrich (parse : List Val → Option (List Val)) (df : Table) :
    ∃ extra, colNames (enrich parse df) = colNames df ++ extra ∧
      ∀ n ∈ extra, (n = "AgeGroup" ∨ n = "Revenue") ∧ getCol df n = none := by
  have hd1 : colNames (enrichDate parse df) = colNames df :=
    colNames_enrichDate parse df
  have step2 : ∃ e1, colNames (enrichAge (enrichDate parse df)) =
      colNames df ++ e1 ∧
      ∀ n ∈ e1, n = "AgeGroup" ∧ getCol df n = none := by
    unfold enrichAge
    cases ha : getCol (enrichDate parse df) "Age" with
    | none => exact ⟨[], by simp [hd1]⟩
    | some ages =>
        cases hc : cutAges ages with
        | none =>
            simp only [hc]
            exact ⟨[], by simp [hd1]⟩
        | some groups =>
            simp only [hc]
            by_cases hag : hasCol (enrichDate parse df) "AgeGroup" = true
            · exact ⟨[], by simp [colNames_setCol_present _ _ _ hag, hd1]⟩
            · rw [Bool.not_eq_true] at hag
              refine ⟨["AgeGroup"], ?_, ?_⟩
              · simp [colNames_setCol_absent _ _ _ hag, hd1]
              · intro n hn
                rw [List.mem_singleton] at hn
                subst hn
                refine ⟨rfl, ?_⟩
                rw [hasCol_enrichDate] at hag
                unfold hasCol at hag
                exact Option.not_isSome_iff_eq_none.mp (by simp [hag])
  obtain ⟨e1, he1, he1p⟩ := step2
  unfold enrich enrichRevenue
  split
  · rename_i hg
    have hrev : hasCol (enrichAge (enrichDate parse df)) "Revenue" = false := by
      rcases hb : hasCol (enrichAge (enrichDate parse df)) "Revenue" with _ | _
      · rfl
      · rw [hb] at hg
        simp at hg
    refine ⟨e1 ++ ["Revenue"], ?_, ?_⟩
    · rw [colNames_setCol_absent _ _ _ hrev, he1, List.append_assoc]
    · intro n hn
      rcases List.mem_append.mp hn with hn1 | hn2
      · exact ⟨Or.inl (he1p n hn1).1, (he1p n hn1).2⟩
      · rw [List.mem_singleton] at hn2
        subst hn2
        refine ⟨Or.inr rfl, ?_⟩
        have : getCol (enrichAge (enrichDate parse df)) "Revenue" = getCol df "Revenue" := by
          rw [getCol_enrichAge_ne _ _ (by decide), getCol_enrichDate_ne _ _ _ (by decide)]
        rw [← this]
        unfold hasCol at hrev
        exact Option.not_isSome_iff_eq_none.mp (by simp [hrev])
  · exact ⟨e1, he1, fun n hn => ⟨Or.inl (he1p n hn).1, (he1p n hn).2⟩⟩

/-- C9 (amended): enrichment changes at most the `OrderDate` column (in
place, only when present and parsing) and the `AgeGroup` column — which,
since the source line 76 assignment has no absence guard, is assigned the
bucketed ages (overwriting any pre-existing `AgeGroup` values) whenever an
`Age` column is present and the bucketing succeeds — adds at most the
`AgeGroup` and `Revenue` columns at the end (`Revenue` only when absent),
leaves every other column's name, order and values unchanged, and removes
no column and no row (hypotheses: the column parser is length-preserving,
and the dataframe is rectangular). -/
theorem c9_enrichment_frame (parse : List Val → Option (List Val))
    (df : Table)
    (hp : ∀ c c2, parse c = some c2 → c2.length = c.length)
    (hrect : ∀ pr ∈ df, (pr.2 : List Val).length = nrows df) :
    (∀ c, c ≠ "OrderDate" → c ≠ "AgeGroup" → c ≠ "Revenue" →
        getCol (enrich parse df) c = getCol df c) ∧
    (∃ extra, colNames (enrich parse df) = colNames df ++ extra ∧
        ∀ n ∈ extra, (n = "AgeGroup" ∨ n = "Revenue") ∧ getCol df n = none) ∧
    (∀ c v v2, getCol df c = some v → getCol (enrich parse df) c = some v2 →
        v2.length = v.length) ∧
    (∀ dcol, getCol df "OrderDate" = some dcol → parse dcol = none →
        getCol (enrich parse df) "OrderDate" = some dcol) ∧
    (∀ ages groups, getCol df "Age" = some ages → cutAges ages = some groups →
        getCol (enrich parse df) "AgeGroup" = some groups) := by
  have hframe : ∀ c, c ≠ "OrderDate" → c ≠ "AgeGroup" → c ≠ "Revenue" →
      getCol (enrich parse df) c = getCol df c := by
    intro c h1 h2 h3
    unfold enrich
    rw [getCol_enrichRevenue_ne _ _ h3, getCol_enrichAge_ne _ _ h2,
      getCol_enrichDate_ne _ _ _ h1]
  refine ⟨hframe, colNames_enrich parse df, ?_, ?_, ?_⟩
  · intro c v v2 hv hv2
    by_cases h1 : c = "OrderDate"
    · subst h1
      rw [enrich, getCol_enrichRevenue_ne _ _ (by decide),
        getCol_enrichAge_ne _ _ (by decide)] at hv2
      rw [enrichDate, hv] at hv2
      cases hpc : parse v with
      | none =>
          simp only [hpc] at hv2
          rw [hv] at hv2
          cases hv2
          rfl
      | some col2 =>
          simp only [hpc] at hv2
          rw [getCol_setCol_self] at hv2
          cases hv2
          exact hp v v2 hpc
    · by_cases h2 : c = "AgeGroup"
      · subst h2
        rw [enrich, getCol_enrichRevenue_ne _ _ (by decide)] at hv2
        rw [enrichAge] at hv2
        cases ha : getCol (enrichDate parse df) "Age" with
        | none =>
            rw [ha] at hv2
            simp only at hv2
            rw [getCol_enrichDate_ne _ _ _ (by decide), hv] at hv2
            cases hv2
            rfl
        | some ages =>
            rw [ha] at hv2
            cases hc : cutAges ages with
            | none =>
                simp only [hc] at hv2
                rw [getCol_enrichDate_ne _ _ _ (by decide), hv] at hv2
                cases hv2
                rfl
            | some groups =>
                simp only [hc] at hv2
                rw [getCol_setCol_self] at hv2
                cases hv2
                rw [getCol_enrichDate_ne _ _ _ (by decide)] at ha
                have hlg : v2.length = ages.length := cutAges_length ages v2 hc
                have hlages : ages.length = nrows df :=
                  hrect ("Age", ages) (getCol_mem df "Age" ages ha)
                have hlv : v.length = nrows df :=
                  hrect ("AgeGroup", v) (getCol_mem df "AgeGroup" v hv)
                rw [hlg, hlages, hlv]
      · by_cases h3 : c = "Revenue"
        · subst h3
          have hpre : getCol (enrichAge (enrichDate parse df)) "Revenue" = some v := by
            rw [getCol_enrichAge_ne _ _ (by decide),
              getCol_enrichDate_ne _ _ _ (by decide)]
            exact hv
          rw [enrich, enrichRevenue] at hv2
          rw [if_neg (by simp [hasCol, hpre])] at hv2
          rw [hpre] at hv2
          cases hv2
          rfl
        · rw [hframe c h1 h2 h3, hv] at hv2
          cases hv2
          rfl
  · intro dcol hd hpd
    rw [enrich, getCol_enrichRevenue_ne _ _ (by decide),
      getCol_enrichAge_ne _ _ (by decide),
      enrichDate_parse_fail parse df dcol hd hpd]
    exact hd
  · intro ages groups hages hcut
    unfold enrich
    rw [getCol_enrichRevenue_ne _ _ (by decide)]
    unfold enrichAge
    have ha1 : getCol (enrichDate parse df) "Age" = some ages := by
      rw [getCol_enrichDate_ne _ _ _ (by decide)]
      exact hages
    rw [ha1]
    simp only [hcut]
    exact getCol_setCol_self _ _ _

/-- Concrete counterexample table for C9: a pre-existing `AgeGroup` column
alongside an `Age` column. -/
def c9CexTable : Table :=
  [("Age", [Val.na]), ("AgeGroup", [Val.str "keep"])]

/-- Counterexample for C9: the source line 76 assignment
`df["AgeGroup"] = pd.cut(...)` carries no absence guard (unlike the
`Revenue` derivation), so when an `Age` column is present a pre-existing
`AgeGroup` column is overwritten in place: its values change from
`["keep"]` to the bucketed ages — enrichment does not leave every
non-date column unchanged, and the overwritten column was not "added". -/
theorem c9_counterexample :
    getCol c9CexTable "AgeGroup" = some [Val.str "keep"] ∧
    getCol (enrich (fun _ => none) c9CexTable) "AgeGroup" = some [Val.na] :=
  ⟨rfl, rfl⟩

/-- Concrete witness table for C9. -/
def c9Table : Table :=
  [("OrderDate", [Val.str "2024-01-02"]), ("Age", [Val.num 30]),
    ("Price", [Val.num 4]), ("Quantity", [Val.num 5])]

/-- Witness for C9: on the concrete table, a column other than the three
derived ones is untouched by enrichment. -/
theorem c9_witness :
    getCol (enrich (fun _ => none) c9Table) "Price" =
      getCol c9Table "Price" :=
  (c9_enrichment_frame (fun _ => none) c9Table
    (fun _ _ h => by cases h)
    (by
      intro pr hpr
      simp only [c9Table, List.mem_cons, List.not_mem_nil, or_false] at hpr
      rcases hpr with rfl | rfl | rfl | rfl <;> rfl)).1
    "Price" (by decide) (by decide) (by decide)

theorem crosstab_rows_nil_iff (pairs : List (Val × Val)) :
    (crosstab pairs).rows = [] ↔ (crosstab pairs).cols = [] := by
  unfold crosstab
  simp [List.dedup_eq_nil, List.map_eq_nil_iff]

/-- C1: the contingency table handed to `stats.chi2_contingency` is always
the crosstab pruned of all rows and columns whose marginal total is below
5: the source's guard `(tab < 5).any().any()` makes the pruning
conditional, but on every crosstab (indeed on every table that is not
rows-without-columns or columns-without-rows) the unpruned case is exactly
the case in which pruning removes nothing. -/
theorem c1_chi_square_pruned_input :
    (∀ t : CrossTab, (t.rows = [] ↔ t.cols = []) →
        chiSquareInput t = pruneLowMarginals t 5) ∧
    (∀ pairs : List (Val × Val),
        chiSquareInput (crosstab pairs) = pruneLowMarginals (crosstab pairs) 5) := by
  have main : ∀ t : CrossTab, (t.rows = [] ↔ t.cols = []) →
      chiSquareInput t = pruneLowMarginals t 5 := by
    intro t hiff
    unfold chiSquareInput
    by_cases hA : anyCellBelow t 5
    · rw [if_pos hA]
    · rw [if_neg hA]
      have hcells : ∀ a ∈ t.rows, ∀ b ∈ t.cols, 5 ≤ t.cell a b := by
        intro a ha b hb
        by_contra hlt
        push_neg at hlt
        apply hA
        unfold anyCellBelow
        rw [List.any_eq_true]
        refine ⟨a, ha, ?_⟩
        rw [List.any_eq_true]
        exact ⟨b, hb, by simpa using hlt⟩
      rcases hR : t.rows with _ | ⟨a0, rs⟩
      · have hC : t.cols = [] := hiff.mp hR
        apply CrossTab.ext <;> simp [pruneLowMarginals, hR, hC]
      · have hC : t.cols ≠ [] := by
          intro hc
          rw [hiff.mpr hc] at hR
          cases hR
        obtain ⟨b0, hb0⟩ := List.exists_mem_of_ne_nil t.cols hC
        have ha0 : t.rows ≠ [] := by rw [hR]; simp
        obtain ⟨a1, ha1⟩ := List.exists_mem_of_ne_nil t.rows ha0
        apply CrossTab.ext
        · simp only [pruneLowMarginals]
          symm
          rw [List.filter_eq_self]
          intro a ha
          have h5 : 5 ≤ rowSum t a := by
            refine le_trans (hcells a ha b0 hb0) ?_
            exact List.single_le_sum (fun x _ => Nat.zero_le x) _
              (List.mem_map_of_mem (t.cell a) hb0)
          simpa using h5
        · simp only [pruneLowMarginals]
          symm
          rw [List.filter_eq_self]
          intro b hb
          have h5 : 5 ≤ colSum t b := by
            refine le_trans (hcells a1 ha1 b hb) ?_
            exact List.single_le_sum (fun x _ => Nat.zero_le x) _
              (List.mem_map_of_mem (fun a => t.cell a b) ha1)
          simpa using h5
        · rfl
  exact ⟨main, fun pairs => main _ (crosstab_rows_nil_iff pairs)⟩

/-- Concrete witness table for C1: one row label, one column label, all
cells 5. -/
def c1Tab : CrossTab :=
  { rows := [Val.str "a"], cols := [Val.str "x"], cell := fun _ _ => 5 }

/-- Witness for C1 at a concrete table. -/
theorem c1_witness : chiSquareInput c1Tab = pruneLowMarginals c1Tab 5 :=
  c1_chi_square_pruned_input.1 c1Tab (by simp [c1Tab])

/-- C2 (code bug): with zero hypothesis tests, no correlation line and no
regression line, the file content is just the header
`# 🧪 Hypothesis Testing (Auto)` — the `(No eligible columns found.)`
placeholder branch is unreachable because `hyp_lines` is seeded with the
header and is therefore never empty. -/
theorem c2_no_tests_header_only :
    hypFileContent [] "" "" = "# 🧪 Hypothesis Testing (Auto)" := by rfl

/-- Counterexample for C3: the claim maps every age in `[18, 25]` to
`"18-25"`, but `pd.cut` bins are left-open, so age exactly 18 gets no
bucket at all. -/
theorem c3_counterexample : ageGroup 18 = none := by norm_num [ageGroup]

/-- C3 (amended): the derived age group follows the left-open right-closed
bands `(18,25], (25,35], (35,45], (45,55], (55,200]`; ages at most 18 or
above 200 are left undefined. -/
theorem c3_age_bands (a : ℚ) :
    (18 < a ∧ a ≤ 25 → ageGroup a = some "18-25") ∧
    (25 < a ∧ a ≤ 35 → ageGroup a = some "26-35") ∧
    (35 < a ∧ a ≤ 45 → ageGroup a = some "36-45") ∧
    (45 < a ∧ a ≤ 55 → ageGroup a = some "46-55") ∧
    (55 < a ∧ a ≤ 200 → ageGroup a = some "55+") ∧
    (a ≤ 18 ∨ 200 < a → ageGroup a = none) := by
  refine ⟨?_, ?_, ?_, ?_, ?_, ?_⟩
  · intro h
    unfold ageGroup
    rw [if_pos h]
  · rintro ⟨h1, h2⟩
    unfold ageGroup
    rw [if_neg (by rintro ⟨_, hle⟩; linarith), if_pos ⟨h1, h2⟩]
  · rintro ⟨h1, h2⟩
    unfold ageGroup
    rw [if_neg (by rintro ⟨_, hle⟩; linarith),
      if_neg (by rintro ⟨_, hle⟩; linarith), if_pos ⟨h1, h2⟩]
  · rintro ⟨h1, h2⟩
    unfold ageGroup
    rw [if_neg (by rintro ⟨_, hle⟩; linarith),
      if_neg (by rintro ⟨_, hle⟩; linarith),
      if_neg (by rintro ⟨_, hle⟩; linarith), if_pos ⟨h1, h2⟩]
  · rintro ⟨h1, h2⟩
    unfold ageGroup
    rw [if_neg (by rintro ⟨_, hle⟩; linarith),
      if_neg (by rintro ⟨_, hle⟩; linarith),
      if_neg (by rintro ⟨_, hle⟩; linarith),
      if_neg (by rintro ⟨_, hle⟩; linarith), if_pos ⟨h1, h2⟩]
  · rintro (h | h) <;>
      · unfold ageGroup
        rw [if_neg (by rintro ⟨hgt, _⟩; linarith),
          if_neg (by rintro ⟨hgt, _⟩; linarith),
          if_neg (by rintro ⟨hgt, _⟩; linarith),
          if_neg (by rintro ⟨hgt, _⟩; linarith),
          if_neg (by rintro ⟨hgt, hle⟩; linarith)]

/-- Witness for C3 at the spec's own probe ages 24, 25, 26, 60. -/
theorem c3_witness :
    ageGroup 24 = some "18-25" ∧ ageGroup 25 = some "18-25" ∧
    ageGroup 26 = some "26-35" ∧ ageGroup 60 = some "55+" :=
  ⟨(c3_age_bands 24).1 (by norm_num), (c3_age_bands 25).1 (by norm_num),
    (c3_age_bands 26).2.1 (by norm_num),
    (c3_age_bands 60).2.2.2.2.1 (by norm_num)⟩

/-- Counterexample for C4: on `[0, 10, 90, 100, 215]` the outlier count is
0 and 50 lies strictly inside the bounds, yet adding 50 changes the count
to 1 (adding an in-bounds row is not count-preserving); and on
`[0, 10, 90, 100]` the upper bound is 220, yet appending 221 = upper + 1
leaves the count at 0 instead of raising it to 1 (the quartiles move with
the added row). -/
theorem c4_counterexample :
    iqrOutliersCount [0, 10, 90, 100, 215] = 0 ∧
    lowerBound [0, 10, 90, 100, 215] < 50 ∧
    (50 : ℚ) < upperBound [0, 10, 90, 100, 215] ∧
    iqrOutliersCount [0, 10, 90, 100, 50, 215] = 1 ∧
    upperBound [0, 10, 90, 100] = 220 ∧
    iqrOutliersCount [0, 10, 90, 100] = 0 ∧
    iqrOutliersCount [0, 10, 90, 100, 221] = 0 := by
  norm_num [iqrOutliersCount, lowerBound, upperBound, quantile, interpAt, sortedVals,
    List.insertionSort, List.orderedInsert, List.countP, List.countP.go, Bool.cond_decide,
    show ((2:ℤ).toNat = 2) from rfl, show ((3:ℤ).toNat = 3) from rfl,
    show ((1:ℤ).toNat = 1) from rfl]

/-- C4 (amended): the per-column IQR outlier count is invariant under any
permutation of the rows. -/
theorem c4_outlier_count_perm_invariant (s t : List ℚ) (h : s.Perm t) :
    iqrOutliersCount s = iqrOutliersCount t := by
  have hsort : sortedVals s = sortedVals t :=
    List.eq_of_perm_of_sorted
      (((List.perm_insertionSort _ s).trans h).trans
        (List.perm_insertionSort _ t).symm)
      (List.sorted_insertionSort _ s) (List.sorted_insertionSort _ t)
  have hq : ∀ p, quantile s p = quantile t p := by
    intro p
    unfold quantile
    rw [hsort]
  have hl : lowerBound s = lowerBound t := by
    unfold lowerBound
    rw [hq, hq]
  have hu : upperBound s = upperBound t := by
    unfold upperBound
    rw [hq, hq]
  unfold iqrOutliersCount
  rw [hl, hu, h.countP_eq]

/-- Witness for C4 at a concrete transposition. -/
theorem c4_witness : iqrOutliersCount [(1:ℚ), 2] = iqrOutliersCount [2, 1] :=
  c4_outlier_count_perm_invariant _ _ (List.Perm.swap 2 1 [])

/-- C5: a test's reported decision is `Reject H0` exactly when its p-value
is strictly below 0.05, and `Fail to reject H0` exactly when the p-value
is at least 0.05 — the boundary p = 0.05 falls on the fail-to-reject side. -/
theorem c5_decision_rule (p : ℚ) :
    (decision p = "Reject H0" ↔ p < 5/100) ∧
    (decision p = "Fail to reject H0" ↔ 5/100 ≤ p) := by
  unfold decision
  split_ifs with h
  · constructor
    · simp
      linarith
    · constructor
      · intro hc
        exact absurd hc (by decide)
      · intro hc
        linarith
  · constructor
    · constructor
      · intro hc
        exact absurd hc (by decide)
      · intro hc
        exact absurd hc h
    · simp
      linarith

/-- Witness for C5 at the boundary p-value 0.05 and at 0.04. -/
theorem c5_witness :
    decision (5/100) = "Fail to reject H0" ∧ decision (4/100) = "Reject H0" :=
  ⟨(c5_decision_rule (5/100)).2.mpr (by norm_num),
    (c5_decision_rule (4/100)).1.mpr (by norm_num)⟩

theorem regressionData_filterMap_eq (rows : List (Option ℚ × Option ℚ))
    (h : ∀ r ∈ rows, r.2.isSome → r.1.isSome) :
    rows.filterMap (fun r =>
      match r with
      | (some a, some b) => some (a, b)
      | _ => none) = specRegressionRows rows := by
  unfold specRegressionRows
  revert h
  induction rows with
  | nil => intro _; rfl
  | cons r rs ih =>
      intro h
      have hr := h r (List.mem_cons_self r rs)
      have hrs : ∀ x ∈ rs, x.2.isSome → x.1.isSome :=
        fun x hx => h x (List.mem_cons_of_mem r hx)
      obtain ⟨x, y⟩ := r
      cases x <;> cases y <;>
        simp_all [List.filterMap_cons, List.filter_cons]

/-- Counterexample for C7: with the discount missing on a row whose
quantity is present, the `.loc` row selection raises a `KeyError` instead
of fitting a regression over the rows with quantity present. -/
theorem c7_counterexample :
    regressionData [(none, some 1)] = Except.error "KeyError: not in index" := by
  rfl

/-- C7 (amended): provided the discount is present on every row whose
quantity is present, the regression is fed, row by row over exactly the
rows with quantity non-missing, the aligned (discount, quantity) pairs;
otherwise the step raises an uncaught `KeyError`. -/
theorem c7_regression_rows (rows : List (Option ℚ × Option ℚ))
    (h : ∀ r ∈ rows, r.2.isSome → r.1.isSome) :
    regressionData rows = Except.ok (specRegressionRows rows) := by
  unfold regressionData
  rw [if_neg]
  · rw [regressionData_filterMap_eq rows h]
  · intro hc
    rw [List.any_eq_true] at hc
    obtain ⟨r, hmem, hcond⟩ := hc
    rw [Bool.and_eq_true, Option.isNone_iff_eq_none] at hcond
    have := h r hmem hcond.2
    rw [hcond.1] at this
    simp at this

/-- Witness for C7 at concrete regression data. -/
theorem c7_witness :
    regressionData [(some 5, some 2), (some 3, none)] =
      Except.ok (specRegressionRows [(some 5, some 2), (some 3, none)]) :=
  c7_regression_rows _ (by decide)

theorem runAnalysis_gate_false (a : Analysis) (df : Table)
    (h : gate a df = false) : runAnalysis a df = none := by
  unfold runAnalysis
  rw [h]
  rfl

theorem testName_of_runAnalysis (b : Analysis) (df : Table) (n : String)
    (tab : CrossTab) (h : runAnalysis b df = some (Out.test n tab)) :
    testName b = some n := by
  unfold runAnalysis at h
  split at h
  · cases b <;> simp only [computeAnalysis] at h <;>
      first
        | (cases h; rfl)
        | cases h
        | (split at h
           · cases h
             rfl
           · cases h)
  · cases h

theorem testName_inj (x y : Analysis) (n : String)
    (hx : testName x = some n) (hy : testName y = some n) : x = y := by
  cases x <;> cases y <;> simp_all [testName] <;>
    (rw [← hx] at hy; exact absurd hy (by decide))

/-- C8: for every gated analysis whose required columns are not all
present, the analysis contributes no output (no chart data, no test, no
correlation or regression data, and in particular its test name is absent
from the results sequence), and masking that analysis on or off changes no
other analysis's output — the gated branches all read the same immutable
dataframe and are mutually independent. -/
theorem c8_gated_independence (df : Table) (a : Analysis)
    (h : gate a df = false) :
    runAnalysis a df = none ∧
    (∀ act act' : Analysis → Bool, (∀ b, b ≠ a → act b = act' b) →
        ∀ b, b ≠ a → pipelineOutputs act df b = pipelineOutputs act' df b) ∧
    (∀ n tab, testName a = some n → Out.test n tab ∉ hypothesisResults df) := by
  refine ⟨runAnalysis_gate_false a df h, ?_, ?_⟩
  · intro act act' hagree b hba
    unfold pipelineOutputs
    rw [hagree b hba]
  · intro n tab hname hmem
    unfold hypothesisResults at hmem
    have hof : ∀ x : Analysis, Out.test n tab ∈ (runAnalysis x df).toList → False := by
      intro x hx
      rw [Option.mem_toList, Option.mem_def] at hx
      have hxn : testName x = some n := testName_of_runAnalysis x df n tab hx
      have hxa : x = a := testName_inj x a n hxn hname
      rw [hxa, runAnalysis_gate_false a df h] at hx
      cases hx
    rcases List.mem_append.mp hmem with hmem1 | hmem4
    · rcases List.mem_append.mp hmem1 with hmem2 | hmem3
      · rcases List.mem_append.mp hmem2 with hm | hm
        · exact hof _ hm
        · exact hof _ hm
      · exact hof _ hmem3
    · exact hof _ hmem4

/-- Concrete witness table for C8: a `Device` column but no `Returned`. -/
def c8Table : Table := [("Device", [Val.str "mobile"])]

/-- Witness for C8: on the concrete table the Device-vs-Returned test is
absent. -/
theorem c8_witness : runAnalysis Analysis.devReturned c8Table = none :=
  (c8_gated_independence c8Table Analysis.devReturned rfl).1

theorem maskFalse_filterMap_nil (mask : List Bool)
    (hm : ∀ b ∈ mask, b = false) (l : List Val) :
    ((l.zip mask).filterMap fun q => if q.2 then some q.1 else none) = [] := by
  induction l generalizing mask with
  | nil => rfl
  | cons x xs ih =>
      cases mask with
      | nil => rfl
      | cons m ms =>
          have hm0 : m = false := hm m (List.mem_cons_self m ms)
          have hms : ∀ b ∈ ms, b = false :=
            fun b hb => hm b (List.mem_cons_of_mem m hb)
          simp only [List.zip_cons_cons, List.filterMap_cons, hm0]
          exact ih ms hms

theorem nrows_filterRows_maskFalse (df : Table) (mask : List Bool)
    (hm : ∀ b ∈ mask, b = false) : nrows (filterRows df mask) = 0 := by
  cases df with
  | nil => rfl
  | cons p t =>
      simp only [filterRows, List.map_cons, nrows]
      rw [maskFalse_filterMap_nil mask hm]
      rfl

/-- C10: when `Brand` and `Returned` are both present but every brand
value is missing, `value_counts` is empty, the top-brands subset is empty,
and the empty-subset guard silently skips the Top-Brands chi-square test:
it contributes nothing to the results, with no error and no skipped-test
indication. -/
theorem c10_all_missing_brand_skipped (df : Table) (bs rs : List Val)
    (hb : getCol df "Brand" = some bs) (hr : getCol df "Returned" = some rs)
    (hna : ∀ v ∈ bs, v = Val.na) :
    runAnalysis Analysis.brandReturned df = none := by
  have hgate : gate Analysis.brandReturned df = true := by
    simp [gate, requiredColumns, hasCol, hb, hr]
  unfold runAnalysis
  rw [hgate]
  simp only [computeAnalysis]
  have hbd : getColD df "Brand" = bs := by simp [getColD, hb]
  have hvc : valueCounts bs = [] := by
    unfold valueCounts
    have hfilter : bs.filter (fun v => !v.isNa) = [] := by
      rw [List.filter_eq_nil_iff]
      intro v hv
      rw [hna v hv]
      simp [Val.isNa]
    rw [hfilter]
    rfl
  rw [hbd, hvc]
  simp only [List.take_nil, List.map_nil]
  have hmask : ∀ b ∈ bs.map (fun v => decide (v ∈ ([] : List Val))), b = false := by
    intro b hbmem
    rw [List.mem_map] at hbmem
    obtain ⟨v, _, hveq⟩ := hbmem
    rw [← hveq]
    simp
  rw [nrows_filterRows_maskFalse df _ hmask]
  simp

/-- Concrete witness table for C10: `Brand` entirely missing. -/
def c10Table : Table := [("Brand", [Val.na]), ("Returned", [Val.num 0])]

/-- Witness for C10 at the concrete table. -/
theorem c10_witness : runAnalysis Analysis.brandReturned c10Table = none :=
  c10_all_missing_brand_skipped c10Table [Val.na] [Val.num 0] rfl rfl
    (by
      intro v hv
      rw [List.mem_singleton] at hv
      exact hv)
